import Mathlib

/-!
Shallow embedding of the Intraday-Scanner repository (scanner.py, trend.py)
and verification of the specification claims against it.

Python floats are modelled as rationals (ℚ). Python `None` / absent values
are modelled as `Option`. Per the source, `float(x) / 0.0` on Python floats
raises `ZeroDivisionError` (modelled as `none` where the source catches it);
unguarded numpy divisions that cannot raise are modelled as total ℚ division.
-/

namespace Scanner

/-- One row of the daily history DataFrame returned by the price-history
provider (scanner.py line 18); a `none` field models a NaN cell, which
`dropna` removes. -/
structure Bar where
  opn : Option ℚ
  high : Option ℚ
  low : Option ℚ
  close : Option ℚ
  volume : Option ℚ
  deriving DecidableEq

/-- A row with no NaN cells, i.e. a row surviving `DF.dropna()`. -/
structure CBar where
  opn : ℚ
  high : ℚ
  low : ℚ
  close : ℚ
  volume : ℚ
  deriving DecidableEq

/-- `DF.dropna()` (scanner.py line 23): keep exactly the rows with all five
cells present. -/
def dropna (l : List Bar) : List CBar :=
  l.filterMap fun b =>
    match b.opn, b.high, b.low, b.close, b.volume with
    | some o, some h, some lo, some c, some v => some ⟨o, h, lo, c, v⟩
    | _, _, _, _, _ => none

/-- The pandas_ta indicator library (scanner.py lines 29-32) is an external
collaborator: it maps the cleaned bar sequence to the latest EMA(20),
EMA(50), RSI(14) and ADX(14) values.  The claims under verification do not
depend on its numerics, so it is kept abstract. -/
structure TA where
  ema20 : List CBar → ℚ
  ema50 : List CBar → ℚ
  rsi : List CBar → ℚ
  adx : List CBar → ℚ

/-- A trivial instantiation of the indicator collaborator, used to
evaluate the embedding on concrete inputs. -/
def taZero : TA :=
  { ema20 := fun _ => 0, ema50 := fun _ => 0, rsi := fun _ => 0, adx := fun _ => 0 }

/-- `is_uptrend = latest['RSI'] > 50` (scanner.py line 47). -/
def is_uptrend (rsi : ℚ) : Bool := decide (50 < rsi)

/-- `ema_bullish = latest['EMA_20'] > latest['EMA_50']` (scanner.py line 48). -/
def ema_bullish (ema20 ema50 : ℚ) : Bool := decide (ema50 < ema20)

/-- `strong_trend = latest['ADX'] > 25` (scanner.py line 49). -/
def strong_trend (adx : ℚ) : Bool := decide (25 < adx)

/-- `signal_score = sum([is_uptrend, ema_bullish, strong_trend])`
(scanner.py line 52): Python sums the booleans as 0/1 integers. -/
def signal_score (rsi ema20 ema50 adx : ℚ) : ℕ :=
  ([is_uptrend rsi, ema_bullish ema20 ema50, strong_trend adx].map Bool.toNat).sum

/-- The three-state trading signal. -/
inductive Signal where
  | BUY
  | WATCH
  | SKIP
  deriving DecidableEq, BEq, Repr

/-- Signal classification (scanner.py lines 54-59), with the source's exact
precedence: BUY needs the threshold AND `is_uptrend`; WATCH needs only the
threshold; otherwise SKIP. -/
def classify_signal (rsi ema20 ema50 adx : ℚ) : Signal :=
  if 2 ≤ signal_score rsi ema20 ema50 adx ∧ is_uptrend rsi = true then Signal.BUY
  else if 2 ≤ signal_score rsi ema20 ema50 adx then Signal.WATCH
  else Signal.SKIP

/-- The dict returned by `get_latest_indicators` (scanner.py lines 61-78).
`volume_mult` embeds the source's `volume_ratio` key. -/
structure ScanRow where
  ticker : String
  current_price : ℚ
  open_price : ℚ
  high : ℚ
  low : ℚ
  price_change_pct : ℚ
  volume_mult : ℚ
  rsi : ℚ
  ema_20 : ℚ
  ema_50 : ℚ
  adx : ℚ
  is_uptrend : Bool
  ema_bullish : Bool
  strong_trend : Bool
  signal : Signal
  signal_score : ℕ
  deriving DecidableEq

/-- `get_latest_indicators` (scanner.py lines 8-82).  The input is the
history provider's result: `none` models a failed fetch, `some l` the raw
DataFrame rows.  Returns `none` exactly where the source returns `None`:
empty data, or fewer than 50 rows after `dropna`.  The latest/previous rows
are taken from the end of the cleaned frame (`iloc[-1]`, `iloc[-2]`); the
day-over-day and volume computations follow lines 43-44 (the divisions
there are numpy float operations, which do not raise, modelled as total ℚ
division; the volume ratio is explicitly guarded by the source). -/
def get_latest_indicators (ta : TA) (ticker : String) (data : Option (List Bar)) :
    Option ScanRow :=
  match data with
  | none => none
  | some d =>
    if d.length = 0 then none
    else
      let DF := dropna d
      if DF.length < 50 then none
      else
        match DF.getLast?, DF.dropLast.getLast? with
        | some latest, some prev =>
          let rsi := ta.rsi DF
          let ema20 := ta.ema20 DF
          let ema50 := ta.ema50 DF
          let adx := ta.adx DF
          let vols := DF.map CBar.volume
          let t20 := vols.drop (vols.length - 20)
          let m := t20.sum / (t20.length : ℚ)
          some
            { ticker := ticker
              current_price := latest.close
              open_price := latest.opn
              high := latest.high
              low := latest.low
              price_change_pct := (latest.close - prev.close) / prev.close * 100
              volume_mult := if 0 < m then latest.volume / m else 0
              rsi := rsi
              ema_20 := ema20
              ema_50 := ema50
              adx := adx
              is_uptrend := is_uptrend rsi
              ema_bullish := ema_bullish ema20 ema50
              strong_trend := strong_trend adx
              signal := classify_signal rsi ema20 ema50 adx
              signal_score := signal_score rsi ema20 ema50 adx }
        | _, _ => none

/-- `scan_stocks` (scanner.py lines 85-96): loop over the list, keep each
instrument whose `get_latest_indicators` returned a (truthy, i.e. non-None)
result.  The per-instrument fetch-and-compute step is abstracted as
`fetch`. -/
def scan_stocks (fetch : String → Option ScanRow) : List String → List ScanRow
  | [] => []
  | t :: ts =>
    match fetch t with
    | some d => d :: scan_stocks fetch ts
    | none => scan_stocks fetch ts

/-- `buy_signals` partition (scanner.py line 104). -/
def buy_signals (results : List ScanRow) : List ScanRow :=
  results.filter fun r => r.signal == Signal.BUY

/-- `watch_signals` partition (scanner.py line 105). -/
def watch_signals (results : List ScanRow) : List ScanRow :=
  results.filter fun r => r.signal == Signal.WATCH

/-- The BUY table rows as displayed (scanner.py line 115):
`sorted(buy_signals, key=lambda x: x['rsi'], reverse=True)` — a stable
descending sort by RSI. -/
def buy_table (results : List ScanRow) : List ScanRow :=
  (buy_signals results).mergeSort fun a b => decide (b.rsi ≤ a.rsi)

/-- The WATCH table rows as displayed (scanner.py line 135): stable
descending sort by `signal_score`. -/
def watch_table (results : List ScanRow) : List ScanRow :=
  (watch_signals results).mergeSort fun a b => decide (b.signal_score ≤ a.signal_score)

end Scanner

namespace Trend

/-- `pct_change` (trend.py lines 49-53): `(curr - prev) / prev * 100.0` on
Python floats; division by zero raises `ZeroDivisionError`, which the
`except` clause turns into `None`. -/
def pct_change (curr prev : ℚ) : Option ℚ :=
  if prev = 0 then none else some ((curr - prev) / prev * 100)

/-- A reference quote as built by `fetch_yf_symbols` / `fetch_india_vix`
(trend.py lines 66-67, 77-78). -/
structure Quote where
  last_close : ℚ
  latest : ℚ
  pct : Option ℚ
  deriving DecidableEq

/-- The per-symbol body of `fetch_yf_symbols` (trend.py lines 58-67).  The
quote provider's response is its `Close` column, oldest first; an empty
history yields `None`.  `last_close` is `iloc[-2]` when at least two
sessions exist, else `iloc[-1]`; `latest` is `iloc[-1]`. -/
def fetch_yf_symbol (hist : List ℚ) : Option Quote :=
  if hist.isEmpty then none
  else
    let latest := (hist[hist.length - 1]?).getD 0
    let last_close := if 2 ≤ hist.length then (hist[hist.length - 2]?).getD 0 else latest
    some { last_close := last_close, latest := latest, pct := pct_change latest last_close }

/-- `fetch_yf_symbols` (trend.py lines 55-68) over a name→history mapping,
in insertion order. -/
def fetch_yf_symbols (hists : List (String × List ℚ)) : List (String × Option Quote) :=
  hists.map fun p => (p.1, fetch_yf_symbol p.2)

/-- One entry of the `details` list built by `score_market`; the source
stores formatted strings, embedded here as structured facts. -/
inductive Detail where
  | up (name : String) (pct : ℚ)
  | down (name : String) (pct : ℚ)
  | gift_note (value : ℚ)
  | vix_up (pct : ℚ)
  | vix_down (pct : ℚ)
  deriving DecidableEq

/-- The index-scoring loop of `score_market` (trend.py lines 136-151),
threading the running `(score, details)` pair through one name→quote list
with weight `w` (1 for US, 0.5 for Asia).  A `None` quote, or a quote whose
`pct` is `None`, changes neither the score nor the details. -/
def score_quotes (w : ℚ) (qs : List (String × Option Quote)) (acc : ℚ × List Detail) :
    ℚ × List Detail :=
  match qs with
  | [] => acc
  | (n, info) :: rest =>
    match info with
    | none => score_quotes w rest acc
    | some q =>
      match q.pct with
      | none => score_quotes w rest acc
      | some p =>
        if 0 < p then score_quotes w rest (acc.1 + w, acc.2 ++ [Detail.up n p])
        else score_quotes w rest (acc.1 - w, acc.2 ++ [Detail.down n p])

/-- `score_market` (trend.py lines 126-165): +1/−1 per US index, +0.5/−0.5
per Asia index, a purely informational GIFT note (a truthy `value`
appends a detail but no weight), then the India-VIX rule: pct > 3.0 →
−1.5, else pct < −2.0 → +0.5, else nothing. -/
def score_market (us asia : List (String × Option Quote)) (gift : Option ℚ)
    (vix : Option Quote) : ℚ × List Detail :=
  let s1 := score_quotes 1 us (0, [])
  let s2 := score_quotes (1/2) asia s1
  let s3 :=
    match gift with
    | some v => if v ≠ 0 then (s2.1, s2.2 ++ [Detail.gift_note v]) else s2
    | none => s2
  match vix with
  | none => s3
  | some q =>
    match q.pct with
    | some p =>
      if 3 < p then (s3.1 - 3/2, s3.2 ++ [Detail.vix_up p])
      else if p < -2 then (s3.1 + 1/2, s3.2 ++ [Detail.vix_down p])
      else s3
    | none => s3

/-- The net score contribution of a single reference quote at weight `w`:
+w when pct > 0, −w otherwise, 0 when the quote or its pct is absent.
Characterization used to state additivity of `score_market`. -/
def quote_contrib (w : ℚ) (info : Option Quote) : ℚ :=
  match info with
  | none => 0
  | some q =>
    match q.pct with
    | none => 0
    | some p => if 0 < p then w else -w

/-- The detail (if any) a single reference quote appends. -/
def quote_detail (n : String) (info : Option Quote) : Option Detail :=
  match info with
  | none => none
  | some q =>
    match q.pct with
    | none => none
    | some p => some (if 0 < p then Detail.up n p else Detail.down n p)

/-- The net score contribution of the volatility quote. -/
def vix_contrib (vix : Option Quote) : ℚ :=
  match vix with
  | none => 0
  | some q =>
    match q.pct with
    | none => 0
    | some p => if 3 < p then -(3/2) else if p < -2 then 1/2 else 0

/-- The details the volatility quote appends. -/
def vix_details (vix : Option Quote) : List Detail :=
  match vix with
  | none => []
  | some q =>
    match q.pct with
    | none => []
    | some p =>
      if 3 < p then [Detail.vix_up p]
      else if p < -2 then [Detail.vix_down p]
      else []

/-- The details the auxiliary (GIFT) scrape appends. -/
def gift_details (gift : Option ℚ) : List Detail :=
  match gift with
  | some v => if v ≠ 0 then [Detail.gift_note v] else []
  | none => []

/-- The bias label computed in `run_scan` (trend.py line 266):
`"BULLISH" if score > 1.0 else ("BEARISH" if score < -1.0 else "NEUTRAL")`. -/
def bias_label (score : ℚ) : String :=
  if 1 < score then "BULLISH" else if score < -1 then "BEARISH" else "NEUTRAL"

/-- One raw row of the heterogeneous pre-open snapshot (trend.py lines
196-200); every logical field may appear under several synonym keys, each
possibly absent. -/
structure RawRow where
  symbol : Option String
  scrip : Option String
  name : Option String
  prev_close : Option ℚ
  prevClose : Option ℚ
  previousClose : Option ℚ
  opn : Option ℚ
  preopen_price : Option ℚ
  preopen : Option ℚ
  qty : Option ℚ
  quantity : Option ℚ
  tradedQty : Option ℚ
  deriving DecidableEq

/-- Python `a or b or ... or dflt` over numeric lookups: the first present,
nonzero (truthy) value wins; `None` and `0` fall through to the default. -/
def first_truthy_num (vals : List (Option ℚ)) (dflt : ℚ) : ℚ :=
  match vals with
  | [] => dflt
  | v :: rest =>
    match v with
    | some x => if x = 0 then first_truthy_num rest dflt else x
    | none => first_truthy_num rest dflt

/-- Python `a or b or c` over string lookups: the first present non-empty
(truthy) string, else `None`. -/
def first_truthy_str (vals : List (Option String)) : Option String :=
  match vals with
  | [] => none
  | v :: rest =>
    match v with
    | some s => if s = "" then first_truthy_str rest else some s
    | none => first_truthy_str rest

/-- A gap candidate (trend.py lines 206-213 and 225-231).  `gap_pct` is
`Option` because the fallback path can produce `None` (see `pct_change`);
`qty` is `None` in the fallback path. -/
structure Candidate where
  symbol : String
  prev_close : ℚ
  preopen : ℚ
  gap_pct : Option ℚ
  qty : Option ℚ
  deriving DecidableEq

/-- Snapshot-row extraction (trend.py lines 194-213): resolve each field
through its synonym chain with Python `or` semantics (defaults: 0 for
`prev`, `prev` for `open`, 0 for `qty`), drop the row when no truthy
symbol resolves, and set `gap = pct_change(op, prev) if prev > 0 else 0`. -/
def row_candidate (r : RawRow) : Option Candidate :=
  let sym := first_truthy_str [r.symbol, r.scrip, r.name]
  let prev := first_truthy_num [r.prev_close, r.prevClose, r.previousClose] 0
  let op := first_truthy_num [r.opn, r.preopen_price, r.preopen] prev
  let q := first_truthy_num [r.qty, r.quantity, r.tradedQty] 0
  match sym with
  | none => none
  | some s =>
    some
      { symbol := s
        prev_close := prev
        preopen := op
        gap_pct := if 0 < prev then pct_change op prev else some 0
        qty := some q }

/-- Fallback candidate for one pool symbol (trend.py lines 216-233): needs
at least two sessions of history; gap is `pct_change(latest, prev)` with
no zero guard, so a zero prior close yields `None`; `qty` is `None`. -/
def fallback_candidate (s : String) (hist : List ℚ) : Option Candidate :=
  if hist.length < 2 then none
  else
    let prev := (hist[hist.length - 2]?).getD 0
    let latest := (hist[hist.length - 1]?).getD 0
    some
      { symbol := s.replace ".NS" ""
        prev_close := prev
        preopen := latest
        gap_pct := pct_change latest prev
        qty := none }

/-- A value of the snapshot mapping: either a row list (a JSON array) or
anything that is not a list. -/
inductive PVal where
  | rows (rs : List RawRow)
  | other
  deriving DecidableEq

/-- The pre-open snapshot payload: a mapping (insertion-ordered, as Python
dicts are) or a bare row list. -/
inductive Preopen where
  | pdict (entries : List (String × PVal))
  | plist (rs : List RawRow)
  deriving DecidableEq

/-- Python truthiness of the payload (`if preopen_data:`): empty dicts and
empty lists are falsy. -/
def preopen_truthy : Preopen → Bool
  | Preopen.pdict es => !es.isEmpty
  | Preopen.plist rs => !rs.isEmpty

/-- `isinstance(v, list)` as an extraction. -/
def as_rows : PVal → Option (List RawRow)
  | PVal.rows rs => some rs
  | PVal.other => none

/-- Row-set resolution (trend.py lines 177-192): a dict with a `data` list
takes it; else a `result` list; else the first value that is a list (or no
rows at all); a bare list is the row set itself. -/
def preopen_rows : Preopen → List RawRow
  | Preopen.plist rs => rs
  | Preopen.pdict es =>
    match es.lookup "data" with
    | some (PVal.rows rs) => rs
    | _ =>
      match es.lookup "result" with
      | some (PVal.rows rs) => rs
      | _ => (es.findSome? fun e => as_rows e.2).getD []

/-- A candidate with the score columns added by trend.py lines 240-247.
`none` in `abs_gap`, `qty_norm` or `score` models a NaN cell. -/
structure Scored where
  cand : Candidate
  abs_gap : Option ℚ
  qty_norm : Option ℚ
  score : Option ℚ
  deriving DecidableEq

/-- The float literal `1e-9` added to the normalization denominator
(trend.py line 243). -/
def eps : ℚ := 1 / 1000000000

/-- The qty values present in a candidate set (pandas min/max skip NaN). -/
def qty_list (cs : List Candidate) : List ℚ := cs.filterMap Candidate.qty

/-- `score = abs_gap * 0.7 + qty_norm * 0.3` (trend.py line 247); NaN in
either column propagates. -/
def combine_score (ag qn : Option ℚ) : Option ℚ :=
  match ag, qn with
  | some a, some n => some (a * (7/10) + n * (3/10))
  | _, _ => none

/-- The scoring columns of trend.py lines 240-247: `abs_gap = |gap_pct|`;
if any qty is present, `qty_norm = (qty - min) / (max - min + 1e-9)` (NaN
for a row with absent qty); if every qty is absent, `qty_norm = 0.0`
everywhere; `score = abs_gap * 0.7 + qty_norm * 0.3`. -/
def score_candidates (cs : List Candidate) : List Scored :=
  let qs := qty_list cs
  let mn := qs.min?.getD 0
  let mx := qs.max?.getD 0
  cs.map fun c =>
    let ag := c.gap_pct.map fun g => |g|
    let qn : Option ℚ :=
      if qs.isEmpty then some 0
      else c.qty.map fun q => (q - mn) / (mx - mn + eps)
    { cand := c, abs_gap := ag, qty_norm := qn, score := combine_score ag qn }

/-- The descending-by-score order used by
`df.sort_values('score', ascending=False)`: higher scores first, NaN rows
last. -/
def rank_le (a b : Scored) : Bool :=
  match a.score, b.score with
  | some x, some y => decide (y ≤ x)
  | some _, none => true
  | none, some _ => false
  | none, none => true

/-- The ranking tail of `analyze_preopen_and_pick_stocks` (trend.py lines
236-251): empty input → empty output; otherwise score, sort descending and
keep the first `top_n` rows. -/
def rank_candidates (top_n : ℕ) (cs : List Candidate) : List Scored :=
  if cs.isEmpty then []
  else ((score_candidates cs).mergeSort rank_le).take top_n

/-- The candidates extracted from the snapshot (trend.py lines 174-213). -/
def snapshot_candidates (preopen_data : Option Preopen) : List Candidate :=
  match preopen_data with
  | none => []
  | some pd =>
    if preopen_truthy pd then (preopen_rows pd).filterMap row_candidate else []

/-- The fallback candidates from the instrument pool (trend.py lines
215-233); `fetch_hist` is the per-symbol two-session history provider. -/
def fallback_candidates (fetch_hist : String → List ℚ) (pool : List String) :
    List Candidate :=
  pool.filterMap fun s => fallback_candidate s (fetch_hist s)

/-- `analyze_preopen_and_pick_stocks` (trend.py lines 167-251): snapshot
candidates if any, else the fallback pool, then rank. -/
def analyze_preopen_and_pick_stocks (fetch_hist : String → List ℚ)
    (preopen_data : Option Preopen) (pool : List String) (top_n : ℕ) : List Scored :=
  let cands := snapshot_candidates preopen_data
  let cands := if cands.isEmpty then fallback_candidates fetch_hist pool else cands
  rank_candidates top_n cands

/-- The `top_n` default of `analyze_preopen_and_pick_stocks`
(trend.py line 167), also the value `run_scan` passes (line 272). -/
def default_top_n : ℕ := 6

/-- Concrete candidate: gap +5 percent, traded qty 100 (the larger qty). -/
def cexA : Candidate :=
  { symbol := "A", prev_close := 100, preopen := 105, gap_pct := some 5, qty := some 100 }

/-- Concrete candidate: gap −8 percent, traded qty 50 (the smaller qty). -/
def cexB : Candidate :=
  { symbol := "B", prev_close := 100, preopen := 92, gap_pct := some (-8), qty := some 50 }

/-- The scored row the ranker produces for `cexB` in the set
`[cexA, cexB]`: its qty is the minimum, so its normalized qty is 0. -/
def cexB_scored : Scored :=
  { cand := cexB, abs_gap := some 8, qty_norm := some 0
    score := some (8 * (7/10) + 0 * (3/10)) }

end Trend

open Scanner Trend

/-- Claim C1: for every snapshot of indicator values, `signal_score` is the
count of true booleans among `is_uptrend` (RSI > 50), `ema_bullish`
(EMA_20 > EMA_50) and `strong_trend` (ADX > 25), an integer bounded by 3,
and the classification has the exact precedence of the source: BUY iff the
score reaches 2 and RSI > 50; WATCH iff the score reaches 2 but RSI ≤ 50
(so `ema_bullish` plus `strong_trend` with RSI ≤ 50 yields WATCH, not
BUY); SKIP iff the score is below 2. -/
theorem signal_classifier_correct (rsi ema20 ema50 adx : ℚ) :
    signal_score rsi ema20 ema50 adx
      = [is_uptrend rsi, ema_bullish ema20 ema50, strong_trend adx].count true
  ∧ signal_score rsi ema20 ema50 adx ≤ 3
  ∧ (classify_signal rsi ema20 ema50 adx = Signal.BUY
      ↔ 2 ≤ signal_score rsi ema20 ema50 adx ∧ 50 < rsi)
  ∧ (classify_signal rsi ema20 ema50 adx = Signal.WATCH
      ↔ 2 ≤ signal_score rsi ema20 ema50 adx ∧ rsi ≤ 50)
  ∧ (classify_signal rsi ema20 ema50 adx = Signal.SKIP
      ↔ signal_score rsi ema20 ema50 adx < 2) := by
  rcases lt_or_le 50 rsi with h1 | h1
  · have h1n : ¬rsi ≤ 50 := not_le.mpr h1
    by_cases h2 : ema50 < ema20 <;> by_cases h3 : (25 : ℚ) < adx <;>
      simp [signal_score, classify_signal, is_uptrend, ema_bullish, strong_trend,
        h1, h1n, h2, h3, List.count_cons]
  · have h1n : ¬(50 : ℚ) < rsi := not_lt.mpr h1
    by_cases h2 : ema50 < ema20 <;> by_cases h3 : (25 : ℚ) < adx <;>
      simp [signal_score, classify_signal, is_uptrend, ema_bullish, strong_trend,
        h1, h1n, h2, h3, List.count_cons]

/-- Claim C3: the bias label is BULLISH exactly when the score exceeds 1,
BEARISH exactly when it is below −1, NEUTRAL otherwise; in particular the
boundary scores 1 and −1 are NEUTRAL (the comparisons are strict). -/
theorem bias_label_boundaries (s : ℚ) :
    (bias_label s = "BULLISH" ↔ 1 < s)
  ∧ (bias_label s = "BEARISH" ↔ s < -1)
  ∧ (bias_label s = "NEUTRAL" ↔ -1 ≤ s ∧ s ≤ 1)
  ∧ bias_label 1 = "NEUTRAL"
  ∧ bias_label (-1) = "NEUTRAL" := by
  have d1 : ("BEARISH" : String) = "BULLISH" ↔ False := by simp
  have d2 : ("NEUTRAL" : String) = "BULLISH" ↔ False := by simp
  have d3 : ("BULLISH" : String) = "BEARISH" ↔ False := by simp
  have d4 : ("NEUTRAL" : String) = "BEARISH" ↔ False := by simp
  have d5 : ("BULLISH" : String) = "NEUTRAL" ↔ False := by simp
  have d6 : ("BEARISH" : String) = "NEUTRAL" ↔ False := by simp
  refine ⟨?_, ?_, ?_, by norm_num [bias_label], by norm_num [bias_label]⟩ <;>
  · by_cases h1 : 1 < s
    · by_cases h2 : s < -1
      · exfalso; linarith
      · simp [bias_label, h1, h2, d1, d2, d3, d4, d5, d6, not_le.mpr h1]
    · by_cases h2 : s < -1
      · simp [bias_label, h1, h2, d1, d2, d3, d4, d5, d6, not_le.mpr h2]
      · simp [bias_label, h1, h2, d1, d2, d3, d4, d5, d6, not_lt.mp h1, not_lt.mp h2]

/-- Claim C5: the indicator engine returns absence, not a fabricated
snapshot, whenever the fetched series is absent, empty, or has fewer than
50 valid (NaN-free) bars after `dropna`; this holds for every indicator
collaborator, so no downstream arithmetic (and no division) is ever
reached for such a series. -/
theorem indicator_engine_absence (ta : TA) (ticker : String) (l : List Bar)
    (h : l = [] ∨ (dropna l).length < 50) :
    get_latest_indicators ta ticker (some l) = none
  ∧ get_latest_indicators ta ticker none = none := by
  refine ⟨?_, rfl⟩
  rcases h with h | h
  · subst h; rfl
  · by_cases h0 : l.length = 0
    · simp [get_latest_indicators, h0]
    · simp [get_latest_indicators, h0, h]

/-- Witness for the C5 theorem at the empty series and a concrete
indicator collaborator. -/
theorem indicator_engine_absence_witness :
    get_latest_indicators taZero "TCS.NS" (some []) = none
  ∧ get_latest_indicators taZero "TCS.NS" none = none :=
  indicator_engine_absence taZero "TCS.NS" [] (Or.inl rfl)

/-- Claim C7: the scan aggregator keeps exactly the instruments whose
indicator computation succeeded, in input order (one failed instrument
never aborts the batch, it is merely skipped), and the displayed BUY
partition is a permutation of the BUY results sorted by RSI descending
while the displayed WATCH partition is a permutation of the WATCH results
sorted by signal score descending. -/
theorem scan_aggregator_spec (fetch : String → Option ScanRow) (l : List String)
    (rs : List ScanRow) :
    scan_stocks fetch l = l.filterMap fetch
  ∧ (buy_table rs).Perm (buy_signals rs)
  ∧ List.Pairwise (fun a b : ScanRow => b.rsi ≤ a.rsi) (buy_table rs)
  ∧ (watch_table rs).Perm (watch_signals rs)
  ∧ List.Pairwise (fun a b : ScanRow => b.signal_score ≤ a.signal_score)
      (watch_table rs) := by
  refine ⟨?_, List.mergeSort_perm _ _, ?_, List.mergeSort_perm _ _, ?_⟩
  · induction l with
    | nil => rfl
    | cons t ts ih => cases hf : fetch t <;> simp [scan_stocks, hf, ih]
  · have h := @List.sorted_mergeSort ScanRow (fun a b => decide (b.rsi ≤ a.rsi))
      (fun a b c hab hbc => by
        simp only [decide_eq_true_eq] at *
        exact le_trans hbc hab)
      (fun a b => by
        simp only [Bool.or_eq_true, decide_eq_true_eq]
        exact le_total _ _)
      (buy_signals rs)
    exact h.imp fun hab => of_decide_eq_true hab
  · have h := @List.sorted_mergeSort ScanRow
      (fun a b => decide (b.signal_score ≤ a.signal_score))
      (fun a b c hab hbc => by
        simp only [decide_eq_true_eq] at *
        exact le_trans hbc hab)
      (fun a b => by
        simp only [Bool.or_eq_true, decide_eq_true_eq]
        exact le_total _ _)
      (watch_signals rs)
    exact h.imp fun hab => of_decide_eq_true hab

/-- Claim C8: when the snapshot yields zero usable candidates and the
fallback pool also yields zero candidates, the gap candidate ranker
returns the empty list (and, being a total function, raises nothing). -/
theorem empty_candidates_empty (fetch : String → List ℚ) (pd : Option Preopen)
    (pool : List String) (top_n : ℕ)
    (h1 : snapshot_candidates pd = []) (h2 : fallback_candidates fetch pool = []) :
    analyze_preopen_and_pick_stocks fetch pd pool top_n = [] := by
  simp [analyze_preopen_and_pick_stocks, h1, h2, rank_candidates]

/-- Witness for the C8 theorem: absent snapshot, empty pool. -/
theorem empty_candidates_empty_witness :
    analyze_preopen_and_pick_stocks (fun _ => []) none [] 6 = [] :=
  empty_candidates_empty (fun _ => []) none [] 6 rfl rfl

/-- The scoring loop threads the accumulator additively: its result is the
initial score plus one independent contribution per quote, and the initial
details followed by one detail per quote that contributed. -/
theorem score_quotes_spec (w : ℚ) (qs : List (String × Option Quote)) (s : ℚ)
    (ds : List Detail) :
    score_quotes w qs (s, ds)
      = (s + (qs.map fun p => quote_contrib w p.2).sum,
         ds ++ qs.filterMap fun p => quote_detail p.1 p.2) := by
  induction qs generalizing s ds with
  | nil => simp [score_quotes]
  | cons q rest ih =>
    obtain ⟨n, info⟩ := q
    rcases info with _ | qt
    · simp [score_quotes, quote_contrib, quote_detail, ih]
    · rcases hp : qt.pct with _ | p
      · simp [score_quotes, quote_contrib, quote_detail, hp, ih]
      · by_cases h : 0 < p <;>
          simp [score_quotes, quote_contrib, quote_detail, hp, h, ih, add_assoc,
            sub_eq_add_neg]

/-- Closed form of `score_market`: the score is the sum of the per-quote
contributions plus the volatility contribution, and the details are the
per-quote details in evaluation order (US, Asia, GIFT note, VIX). -/
theorem score_market_eq (us asia : List (String × Option Quote)) (gift : Option ℚ)
    (vix : Option Quote) :
    score_market us asia gift vix
      = ((us.map fun p => quote_contrib 1 p.2).sum
          + (asia.map fun p => quote_contrib (1/2) p.2).sum
          + vix_contrib vix,
         (us.filterMap fun p => quote_detail p.1 p.2)
          ++ (asia.filterMap fun p => quote_detail p.1 p.2)
          ++ gift_details gift ++ vix_details vix) := by
  unfold score_market
  simp only [score_quotes_spec]
  rcases gift with _ | v
  all_goals rcases vix with _ | q
  · simp [gift_details, vix_contrib, vix_details]
  · rcases hp : q.pct with _ | p
    · simp [gift_details, vix_contrib, vix_details, hp]
    · by_cases h3 : 3 < p
      · simp [gift_details, vix_contrib, vix_details, hp, h3, sub_eq_add_neg, add_assoc]
      · by_cases h2 : p < -2 <;>
          simp [gift_details, vix_contrib, vix_details, hp, h3, h2, add_assoc]
  · by_cases hv : v ≠ 0 <;> simp [gift_details, vix_contrib, vix_details, hv]
  · rcases hp : q.pct with _ | p
    · by_cases hv : v ≠ 0 <;> simp [gift_details, vix_contrib, vix_details, hp, hv]
    · by_cases hv : v ≠ 0
      · by_cases h3 : 3 < p
        · simp [gift_details, vix_contrib, vix_details, hp, hv, h3, sub_eq_add_neg,
            add_assoc]
        · by_cases h2 : p < -2 <;>
            simp [gift_details, vix_contrib, vix_details, hp, hv, h3, h2, add_assoc]
      · by_cases h3 : 3 < p
        · simp [gift_details, vix_contrib, vix_details, hp, hv, h3, sub_eq_add_neg,
            add_assoc]
        · by_cases h2 : p < -2 <;>
            simp [gift_details, vix_contrib, vix_details, hp, hv, h3, h2, add_assoc]

/-- Claim C2: the market bias score is additive over independent
contributions — each primary quote adds +1 when its pct is positive and −1
otherwise and is skipped entirely (no score, no detail) when its pct is
unavailable; each secondary quote likewise adds ±0.5; the volatility index
adds −1.5 when its pct exceeds 3, +0.5 when below −2, else nothing; and
the auxiliary scraped value never changes the score. -/
theorem market_bias_additive (us asia : List (String × Option Quote)) (gift : Option ℚ)
    (vix : Option Quote) :
    (score_market us asia gift vix).1
      = (us.map fun p => quote_contrib 1 p.2).sum
        + (asia.map fun p => quote_contrib (1/2) p.2).sum
        + vix_contrib vix
  ∧ (score_market us asia gift vix).1 = (score_market us asia none vix).1
  ∧ (score_market us asia gift vix).2
      = (us.filterMap fun p => quote_detail p.1 p.2)
        ++ (asia.filterMap fun p => quote_detail p.1 p.2)
        ++ gift_details gift ++ vix_details vix := by
  refine ⟨by rw [score_market_eq], ?_, by rw [score_market_eq]⟩
  rw [score_market_eq, score_market_eq]

/-- Claim C10 counterexample: a single-session history whose only close is
0 gives a quote whose pct is unavailable (division by zero is caught, not
evaluated to 0), so the quote is skipped and contributes 0 to the bias
score, not the −1 the claim asserts. -/
theorem single_session_zero_close_cex :
    fetch_yf_symbol [0] = some { last_close := 0, latest := 0, pct := none }
  ∧ (score_market [("S&P500", fetch_yf_symbol [0])] [] none none).1 = 0
  ∧ (score_market [("S&P500", fetch_yf_symbol [0])] [] none none).1 ≠ -1
  ∧ (score_market [("S&P500", fetch_yf_symbol [0])] [] none none).2 = [] := by
  have hq : fetch_yf_symbol [0] = some { last_close := 0, latest := 0, pct := none } := by
    norm_num [fetch_yf_symbol, pct_change]
  refine ⟨hq, ?_, ?_, ?_⟩ <;>
    norm_num [hq, score_market, score_quotes]

/-- Claim C10 (amended): for a reference symbol whose history has exactly
one session with a nonzero close, `last_close` equals the latest close, so
pct evaluates to exactly 0; the degraded quote is not treated as
unavailable and contributes through the non-positive branch: −1 as a
primary market, −0.5 as a secondary market (when the single close is 0 the
pct is unavailable instead and the quote is skipped). -/
theorem single_session_quote (c : ℚ) (hc : c ≠ 0) (n : String) :
    fetch_yf_symbol [c] = some { last_close := c, latest := c, pct := some 0 }
  ∧ (score_market [(n, fetch_yf_symbol [c])] [] none none).1 = -1
  ∧ (score_market [(n, fetch_yf_symbol [c])] [] none none).2 = [Detail.down n 0]
  ∧ (score_market [] [(n, fetch_yf_symbol [c])] none none).1 = -(1/2) := by
  have hq : fetch_yf_symbol [c] = some { last_close := c, latest := c, pct := some 0 } := by
    simp [fetch_yf_symbol, pct_change, hc]
  refine ⟨hq, ?_, ?_, ?_⟩ <;>
    norm_num [hq, score_market, score_quotes]

/-- Witness for the C10 theorem at the single-session history with
close 5, scored once as a primary and once as a secondary market. -/
theorem single_session_quote_witness :
    fetch_yf_symbol [5] = some { last_close := 5, latest := 5, pct := some 0 }
  ∧ (score_market [("Nikkei", fetch_yf_symbol [5])] [] none none).1 = -1
  ∧ (score_market [("Nikkei", fetch_yf_symbol [5])] [] none none).2 = [Detail.down "Nikkei" 0]
  ∧ (score_market [] [("Nikkei", fetch_yf_symbol [5])] none none).1 = -(1/2) :=
  single_session_quote 5 (by norm_num) "Nikkei"

/-- Folding `min` over a list never exceeds the start value. -/
theorem foldl_min_le_init (as : List ℚ) (a : ℚ) : as.foldl min a ≤ a := by
  induction as generalizing a with
  | nil => exact le_refl a
  | cons c cs ih => exact le_trans (ih (min a c)) (min_le_left a c)

/-- Folding `min` over a list never exceeds any member. -/
theorem foldl_min_le_mem {as : List ℚ} {b : ℚ} (hb : b ∈ as) (a : ℚ) :
    as.foldl min a ≤ b := by
  induction as generalizing a with
  | nil => cases hb
  | cons c cs ih =>
    rcases List.mem_cons.mp hb with h | h
    · subst h
      exact le_trans (foldl_min_le_init cs (min a b)) (min_le_right a b)
    · exact ih h (min a c)

/-- The optional minimum of a list bounds every member from below. -/
theorem min?_getD_le {l : List ℚ} {b : ℚ} (hb : b ∈ l) (d : ℚ) :
    l.min?.getD d ≤ b := by
  cases l with
  | nil => cases hb
  | cons a as =>
    simp only [List.min?, Option.getD_some]
    rcases List.mem_cons.mp hb with h | h
    · subst h; exact foldl_min_le_init as b
    · exact foldl_min_le_mem h a

/-- Folding `max` over a list is at least the start value. -/
theorem le_foldl_max_init (as : List ℚ) (a : ℚ) : a ≤ as.foldl max a := by
  induction as generalizing a with
  | nil => exact le_refl a
  | cons c cs ih => exact le_trans (le_max_left a c) (ih (max a c))

/-- Folding `max` over a list is at least any member. -/
theorem le_foldl_max_mem {as : List ℚ} {b : ℚ} (hb : b ∈ as) (a : ℚ) :
    b ≤ as.foldl max a := by
  induction as generalizing a with
  | nil => cases hb
  | cons c cs ih =>
    rcases List.mem_cons.mp hb with h | h
    · subst h
      exact le_trans (le_max_right a b) (le_foldl_max_init cs (max a b))
    · exact ih h (max a c)

/-- The optional maximum of a list bounds every member from above. -/
theorem le_max?_getD {l : List ℚ} {b : ℚ} (hb : b ∈ l) (d : ℚ) :
    b ≤ l.max?.getD d := by
  cases l with
  | nil => cases hb
  | cons a as =>
    simp only [List.max?, Option.getD_some]
    rcases List.mem_cons.mp hb with h | h
    · subst h; exact le_foldl_max_init as b
    · exact le_foldl_max_mem h a

/-- The descending-score order used by the ranker is transitive. -/
theorem rank_le_trans : ∀ a b c : Scored, rank_le a b = true → rank_le b c = true →
    rank_le a c = true := by
  intro a b c hab hbc
  unfold Trend.rank_le at hab hbc ⊢
  rcases ha : a.score with _ | x <;> rcases hb : b.score with _ | y <;>
      rcases hc : c.score with _ | z <;> simp_all [decide_eq_true_eq]
  all_goals linarith

/-- The descending-score order used by the ranker is total. -/
theorem rank_le_total : ∀ a b : Scored, (rank_le a b || rank_le b a) = true := by
  intro a b
  unfold Trend.rank_le
  rcases a.score with _ | x <;> rcases b.score with _ | y <;>
    simp [decide_eq_true_eq]
  exact le_total y x

/-- Claim C4 (amended): the ranker sorts the scored candidates descending
by composite score and truncates to the top N; on every scored row,
`abs_gap` is the absolute gap, the composite score is
0.7 × abs_gap + 0.3 × normalized qty, and the normalized qty is
(qty − min) / (max − min + 1e-9) — so the minimum-quantity row normalizes
to exactly 0, every row with all quantities absent normalizes to 0, and
every normalized quantity is strictly below 1: the maximum-quantity row
reaches (max − min) / (max − min + 1e-9), not 1. -/
theorem gap_ranker_corrected (top_n : ℕ) (cs : List Candidate) :
    rank_candidates top_n cs = ((score_candidates cs).mergeSort rank_le).take top_n
  ∧ (rank_candidates top_n cs).length ≤ top_n
  ∧ List.Pairwise (fun a b => rank_le a b = true) (rank_candidates top_n cs)
  ∧ (∀ s ∈ rank_candidates top_n cs, s ∈ score_candidates cs)
  ∧ (∀ s ∈ score_candidates cs,
        s.abs_gap = s.cand.gap_pct.map (fun g => |g|)
      ∧ s.score = combine_score s.abs_gap s.qty_norm
      ∧ s.qty_norm =
          (if (qty_list cs).isEmpty then some 0
           else s.cand.qty.map fun q =>
             (q - (qty_list cs).min?.getD 0)
               / ((qty_list cs).max?.getD 0 - (qty_list cs).min?.getD 0 + eps)))
  ∧ (∀ s ∈ score_candidates cs, ¬(qty_list cs).isEmpty = true →
        s.cand.qty = some ((qty_list cs).min?.getD 0) → s.qty_norm = some 0)
  ∧ (∀ s ∈ score_candidates cs, ∀ v, s.qty_norm = some v → v < 1) := by
  have heq : rank_candidates top_n cs
      = ((score_candidates cs).mergeSort rank_le).take top_n := by
    unfold rank_candidates
    by_cases h : cs.isEmpty
    · have h0 : cs = [] := List.isEmpty_iff.mp h
      subst h0
      simp [score_candidates, qty_list]
    · simp [h]
  have hsorted : List.Pairwise (fun a b => rank_le a b = true)
      ((score_candidates cs).mergeSort rank_le) :=
    List.sorted_mergeSort rank_le_trans rank_le_total (score_candidates cs)
  refine ⟨heq, ?_, ?_, ?_, ?_, ?_, ?_⟩
  · rw [heq, List.length_take]
    exact min_le_left _ _
  · rw [heq]
    exact List.Pairwise.sublist (List.take_sublist _ _) hsorted
  · intro s hs
    rw [heq] at hs
    exact (List.mergeSort_perm (score_candidates cs) rank_le).subset
      ((List.take_sublist _ _).subset hs)
  · intro s hs
    simp only [score_candidates] at hs
    rcases List.mem_map.mp hs with ⟨c, hc, rfl⟩
    exact ⟨rfl, rfl, rfl⟩
  · intro s hs hne hq
    simp only [score_candidates] at hs
    rcases List.mem_map.mp hs with ⟨c, hc, rfl⟩
    simp only [hne, if_false, Bool.not_eq_true] at *
    simp [hq, if_neg, hne]
  · intro s hs v hv
    simp only [score_candidates] at hs
    rcases List.mem_map.mp hs with ⟨c, hc, rfl⟩
    by_cases hne : (qty_list cs).isEmpty
    · simp only [hne, if_true] at hv
      simp only [Option.some.injEq] at hv
      subst hv
      norm_num
    · rcases hcq : c.qty with _ | q
      · simp [hne, hcq] at hv
      · simp only [hne, if_false, hcq, Option.map_some', Option.some.injEq,
          Bool.false_eq_true] at hv
        have hqmem : q ∈ qty_list cs := List.mem_filterMap.mpr ⟨c, hc, hcq⟩
        have h1 : (qty_list cs).min?.getD 0 ≤ q := min?_getD_le hqmem 0
        have h2 : q ≤ (qty_list cs).max?.getD 0 := le_max?_getD hqmem 0
        have heps : (0 : ℚ) < eps := by norm_num [eps]
        have hd : 0 < (qty_list cs).max?.getD 0 - (qty_list cs).min?.getD 0 + eps := by
          linarith
        rw [← hv, div_lt_one hd]
        linarith

/-- Claim C4 counterexample: on the two-candidate set with gaps +5 and −8
and quantities 100 and 50, the claim-mandated normalization (max row to
exactly 1) would give scores 0.7·5 + 0.3·1 = 19/5 and 0.7·8 + 0.3·0 = 28/5
and ranked scores [28/5, 19/5]; the code divides by (max − min + 1e-9), so
its normalized quantities and scores differ on the max row. -/
theorem gap_ranker_cex :
    (score_candidates [cexA, cexB]).map Scored.qty_norm ≠ [some 1, some 0]
  ∧ (score_candidates [cexA, cexB]).map Scored.score ≠ [some (19/5), some (28/5)]
  ∧ (rank_candidates 6 [cexA, cexB]).map Scored.score ≠ [some (28/5), some (19/5)] := by
  refine ⟨?_, ?_, ?_⟩ <;>
    norm_num [rank_candidates, score_candidates, qty_list, cexA, cexB, eps, List.min?,
      List.max?, List.filterMap_cons, List.foldl, combine_score, List.mergeSort,
      List.merge, Trend.rank_le]

/-- Witness for the C4 theorem: the truncation bound at the concrete
two-candidate set, and the strict sub-1 bound applied to the concrete
scored row of the smaller-quantity candidate. -/
theorem gap_ranker_corrected_witness :
    (rank_candidates 6 [cexA, cexB]).length ≤ 6 ∧ (0 : ℚ) < 1 := by
  refine ⟨(gap_ranker_corrected 6 [cexA, cexB]).2.1, ?_⟩
  have hmem : cexB_scored ∈ score_candidates [cexA, cexB] := by
    norm_num [score_candidates, qty_list, cexA, cexB, cexB_scored, eps, List.min?,
      List.max?, List.filterMap_cons, List.foldl, combine_score]
  exact (gap_ranker_corrected 6 [cexA, cexB]).2.2.2.2.2.2 _ hmem 0 rfl

/-- Claim C6 counterexample: a fallback instrument whose prior close is 0
gets gap `None` (the caught division-by-zero), not the gap 0 the claim
asserts; the candidate itself is still produced without any exception. -/
theorem gap_zero_guard_cex :
    (fallback_candidate "X" [0, 10]).map Candidate.gap_pct = some none
  ∧ (fallback_candidate "X" [0, 10]).map Candidate.gap_pct ≠ some (some 0)
  ∧ (fallback_candidate "X" [0, 10]).isSome = true := by
  have h : (fallback_candidate "X" [0, 10]).map Candidate.gap_pct = some none := by
    norm_num [fallback_candidate, pct_change]
  refine ⟨h, ?_, rfl⟩
  rw [h]
  intro hc
  injection hc with hc
  exact Option.noConfusion hc

/-- Claim C6 (amended): gap_pct is (new − old) / old × 100 whenever the
prior close is nonzero, and a zero prior close never raises: a snapshot
row whose resolved prior close is not positive (0, unavailable, or
negative) gets gap 0, while a fallback instrument always gets
`pct_change latest prev`, which is `None` (unavailable), not 0, when the
prior close is 0. -/
theorem gap_zero_guard :
    (∀ curr : ℚ, pct_change curr 0 = none)
  ∧ (∀ curr prev : ℚ, prev ≠ 0 → pct_change curr prev = some ((curr - prev) / prev * 100))
  ∧ (∀ r c, row_candidate r = some c →
      c.gap_pct = if 0 < c.prev_close then pct_change c.preopen c.prev_close else some 0)
  ∧ (∀ s hist c, fallback_candidate s hist = some c →
      c.gap_pct = pct_change c.preopen c.prev_close)
  ∧ (∀ s hist c, fallback_candidate s hist = some c → c.prev_close = 0 →
      c.gap_pct = none) := by
  have hfb : ∀ (s : String) (hist : List ℚ) c, fallback_candidate s hist = some c →
      c.gap_pct = pct_change c.preopen c.prev_close := by
    intro s hist c h
    unfold fallback_candidate at h
    by_cases hl : hist.length < 2
    · simp [hl] at h
    · simp only [hl, if_false] at h
      injection h with h
      subst h
      rfl
  refine ⟨fun curr => by simp [pct_change], fun curr prev h => by simp [pct_change, h],
    ?_, hfb, ?_⟩
  · intro r c h
    simp only [row_candidate] at h
    rcases hsym : first_truthy_str [r.symbol, r.scrip, r.name] with _ | s
    · rw [hsym] at h; cases h
    · rw [hsym] at h
      injection h with h
      subst h
      rfl
  · intro s hist c h h0
    rw [hfb s hist c h, h0]
    simp [pct_change]

/-- Witness for the C6 theorem: the zero-divisor case of `pct_change` and
the formula case with a nonzero prior close. -/
theorem gap_zero_guard_witness :
    pct_change 10 0 = none
  ∧ pct_change 110 100 = some ((110 - 100) / 100 * 100) :=
  ⟨gap_zero_guard.1 10, gap_zero_guard.2.1 110 100 (by norm_num)⟩

/-- Claim C9: when the snapshot is a mapping with neither a `data` key nor
a `result` key holding a row list, the ranker takes the first mapping
value that is a row list as the row set, and when no value is a row list
the snapshot yields zero rows, so the whole analysis behaves exactly as if
the snapshot were absent and the fallback pool is used. -/
theorem preopen_dict_shape (es : List (String × PVal))
    (hd : (es.lookup "data").bind as_rows = none)
    (hr : (es.lookup "result").bind as_rows = none) :
    preopen_rows (Preopen.pdict es) = (es.findSome? fun e => as_rows e.2).getD []
  ∧ ((es.findSome? fun e => as_rows e.2) = none →
      ∀ (fetch : String → List ℚ) (pool : List String) (top_n : ℕ),
        analyze_preopen_and_pick_stocks fetch (some (Preopen.pdict es)) pool top_n
          = analyze_preopen_and_pick_stocks fetch none pool top_n) := by
  have hrows : preopen_rows (Preopen.pdict es)
      = (es.findSome? fun e => as_rows e.2).getD [] := by
    simp only [preopen_rows]
    rcases h1 : es.lookup "data" with _ | pv
    · rcases h2 : es.lookup "result" with _ | pv2
      · rfl
      · rcases pv2 with rs | _
        · rw [h2] at hr; simp [as_rows] at hr
        · rfl
    · rcases pv with rs | _
      · rw [h1] at hd; simp [as_rows] at hd
      · rcases h2 : es.lookup "result" with _ | pv2
        · rfl
        · rcases pv2 with rs | _
          · rw [h2] at hr; simp [as_rows] at hr
          · rfl
  refine ⟨hrows, ?_⟩
  intro hnone fetch pool top_n
  have hsnap : snapshot_candidates (some (Preopen.pdict es)) = [] := by
    simp only [snapshot_candidates]
    rw [hrows, hnone]
    simp
  have hsnap2 : snapshot_candidates (none : Option Preopen) = [] := rfl
  simp [analyze_preopen_and_pick_stocks, hsnap, hsnap2]

/-- Witness for the C9 theorem: a one-entry mapping whose only value is
not a row list yields zero rows and defers to the fallback pool. -/
theorem preopen_dict_shape_witness :
    preopen_rows (Preopen.pdict [("x", PVal.other)]) = ([] : List RawRow)
  ∧ analyze_preopen_and_pick_stocks (fun _ => []) (some (Preopen.pdict [("x", PVal.other)]))
      [] 6
      = analyze_preopen_and_pick_stocks (fun _ => []) none [] 6 := by
  have h := preopen_dict_shape [("x", PVal.other)] rfl rfl
  exact ⟨by rw [h.1]; rfl, h.2 rfl (fun _ => []) [] 6⟩
